import Mathlib

/-!
Verification of the pump.fun buyback bot's protocol-interaction layer.

The development shallowly embeds the TypeScript sources:
  * `src/services/pumpfun.ts`  — curve-account decoding, the constant-product
    quote, claimable-fee lookup, fee claiming with the versioned/legacy
    transaction fallback;
  * `src/services/buyback.ts`  — buy-instruction construction and the
    automatic claim-then-buy orchestration cycle;
  * `src/config.ts`            — configuration fields used by the above.

JavaScript `BigInt` arithmetic is embedded as `ℤ` with `Int.tdiv`
(truncation toward zero, which is what `BigInt` division does) or as `ℕ`
where every operand is provably non-negative.  JavaScript `number` values
that only flow through comparisons and assignments (SOL amounts in the
orchestrator) are embedded as `ℚ`.  Node `Buffer` values are lists of
natural numbers with explicit little-endian reads and writes, and every
fallible Buffer operation returns an `Option`.
-/

namespace ClaudeBuyback

/-- Lamports per SOL, the fixed conversion constant of the chain. -/
def LAMPORTS_PER_SOL : ℕ := 1000000000

/-! ## Curve state (`BondingCurveData` in `pumpfun.ts`) -/

/-- Decoded bonding-curve account state, `pumpfun.ts` lines 15-22. -/
structure BondingCurveData where
  virtualTokenReserves : ℕ
  virtualSolReserves : ℕ
  realTokenReserves : ℕ
  realSolReserves : ℕ
  tokenTotalSupply : ℕ
  complete : Bool
deriving DecidableEq

/-! ## Little-endian byte-buffer primitives (Node `Buffer` semantics) -/

/-- Value of a little-endian byte list (first byte is least significant). -/
def readNatLE : List ℕ → ℕ
  | [] => 0
  | b :: bs => b + 256 * readNatLE bs

/-- Node `buffer.readBigUInt64LE(offset)`: reads eight bytes starting at
`offset`; out-of-range offsets throw, embedded as `none`. -/
def readBigUInt64LE (data : List ℕ) (off : ℕ) : Option ℕ :=
  if off + 8 ≤ data.length then some (readNatLE ((data.drop off).take 8)) else none

/-- Node `buffer.readUInt8(offset)`: reads one byte; out-of-range offsets
throw, embedded as `none`. -/
def readUInt8 (data : List ℕ) (off : ℕ) : Option ℕ :=
  if off + 1 ≤ data.length then some (data.getD off 0) else none

/-- Little-endian byte list of length `k` for a natural number. -/
def leBytes : ℕ → ℕ → List ℕ
  | 0, _ => []
  | k + 1, n => n % 256 :: leBytes k (n / 256)

/-- Node `buffer.writeBigUInt64LE(value, offset)`: writes the eight-byte
little-endian encoding; a value outside `[0, 2^64)` throws
(`ERR_OUT_OF_RANGE`), embedded as `none`. -/
def writeBigUInt64LE (value : ℤ) : Option (List ℕ) :=
  if 0 ≤ value ∧ value < 2 ^ 64 then some (leBytes 8 value.toNat) else none

/-! ## Curve-account decoding (`getBondingCurveData`, `pumpfun.ts` 268-303)

The network fetch is abstracted away; `decodeBondingCurveAccount` is the
pure decoding step applied to the fetched account bytes:
field reads at offsets 8, 16, 24, 32, 40 and the completion flag at 48. -/

/-- Pure decoding step of `getBondingCurveData` (`pumpfun.ts` 282-298).
Any out-of-range read throws in the source and is caught by the
surrounding `try`, so the whole decode is `none` exactly when some
read is out of range. -/
def decodeBondingCurveAccount (data : List ℕ) : Option BondingCurveData :=
  (readBigUInt64LE data 8).bind fun virtualTokenReserves =>
  (readBigUInt64LE data 16).bind fun virtualSolReserves =>
  (readBigUInt64LE data 24).bind fun realTokenReserves =>
  (readBigUInt64LE data 32).bind fun realSolReserves =>
  (readBigUInt64LE data 40).bind fun tokenTotalSupply =>
  (readUInt8 data 48).map fun completeByte =>
    { virtualTokenReserves := virtualTokenReserves
      virtualSolReserves := virtualSolReserves
      realTokenReserves := realTokenReserves
      realSolReserves := realSolReserves
      tokenTotalSupply := tokenTotalSupply
      complete := completeByte == 1 }

/-- Little-endian u64 field of a byte list at a given offset, written as a
plain positional sum: this is the specification-side reading of
"the little-endian u64 field at offset `off`". -/
def leFieldAt (data : List ℕ) (off : ℕ) : ℕ :=
  ∑ i ∈ Finset.range 8, data.getD (off + i) 0 * 256 ^ i

/-! ## Pricing (`calculateBuyAmount`, `pumpfun.ts` 308-317, and the
slippage minimum, `buyback.ts` 85) -/

/-- The constant-product quote of `calculateBuyAmount` (`pumpfun.ts`
312-314), taken at the lamport level: all operands are `BigInt`s and
non-negative, so `BigInt` division is `ℕ` floor division. -/
def calculateBuyAmount (solLamports : ℕ) (curveData : BondingCurveData) : ℕ :=
  solLamports * curveData.virtualTokenReserves /
    (curveData.virtualSolReserves + solLamports)

/-- The slippage minimum of `buyback.ts` line 85:
`(expectedTokens * BigInt(10000 - slippageBps)) / BigInt(10000)`.
`10000 - slippageBps` is JavaScript `number` subtraction (may be
negative), and `BigInt` division truncates toward zero, hence `Int.tdiv`. -/
def minTokensWithSlippage (expectedTokens : ℤ) (slippageBps : ℕ) : ℤ :=
  (expectedTokens * ((10000 : ℤ) - slippageBps)).tdiv 10000

/-! ## Buy-instruction construction (`executeBuyback`, `buyback.ts` 66-136) -/

/-- The fixed eight-byte buy discriminator, `buyback.ts` 98-100. -/
def buyDiscriminator : List ℕ := [0x66, 0x06, 0x3d, 0x12, 0x01, 0xda, 0xeb, 0xea]

/-- The instruction-data layout of `buyback.ts` 104-107: discriminator,
then the u64 little-endian lamport amount at offset 8, then the u64
little-endian minimum-token amount at offset 16.  Either
`writeBigUInt64LE` throws on an out-of-range value, embedded as `none`. -/
def encodeBuyInstructionData (solLamports minTokens : ℤ) : Option (List ℕ) :=
  (writeBigUInt64LE solLamports).bind fun amountBytes =>
  (writeBigUInt64LE minTokens).map fun minBytes =>
    buyDiscriminator ++ amountBytes ++ minBytes

/-- Symbolic names for the account keys appearing in the buy instruction;
the concrete 32-byte addresses are environment data (PDAs, wallet,
well-known programs) irrelevant to the ordering contract. -/
inductive AccountId where
  | globalState
  | feeAccount
  | tokenMint
  | curvePda
  | curveTokenAccount
  | buyerTokenAccount
  | buyer
  | systemProgram
  | tokenProgram
  | rentSysvar
  | associatedTokenProgram
deriving DecidableEq

/-- An account-key entry with its signer/writable flags. -/
structure AccountMeta where
  pubkey : AccountId
  isSigner : Bool
  isWritable : Bool
deriving DecidableEq

/-- The account-key list of the buy instruction, `buyback.ts` 111-123,
in source order with the source's flags. -/
def buyInstructionKeys : List AccountMeta :=
  [ ⟨.globalState, false, false⟩,
    ⟨.feeAccount, false, true⟩,
    ⟨.tokenMint, false, false⟩,
    ⟨.curvePda, false, true⟩,
    ⟨.curveTokenAccount, false, true⟩,
    ⟨.buyerTokenAccount, false, true⟩,
    ⟨.buyer, true, true⟩,
    ⟨.systemProgram, false, false⟩,
    ⟨.tokenProgram, false, false⟩,
    ⟨.rentSysvar, false, false⟩,
    ⟨.associatedTokenProgram, false, false⟩ ]

/-! ## The buy path (`executeBuyback`) -/

/-- Configuration fields of `BotConfig` (`config.ts` 9-34) used by the
embedded operations.  `loadConfig` performs no range validation of
`slippageBps` (`config.ts` 60-70), so any natural number can occur. -/
structure BotConfig where
  minBuybackAmount : ℚ
  slippageBps : ℕ
deriving DecidableEq

/-- External-world inputs consumed by one `executeBuyback` call: the
bonding-curve account fetch result (`none` = account absent) and the
result of `wallet.sendTransaction` (`none` = it throws). -/
structure BuyEnv where
  curve : Option BondingCurveData
  sendSignature : Option ℕ
deriving DecidableEq

/-- Control-flow outcome of `executeBuyback`.  In the source, `graduated`,
`noCurveData`, `encodeError` and `sendFailed` all surface as `null`;
the constructors record which branch produced it and what was built. -/
inductive BuyOutcome where
  | graduated
  | noCurveData
  | encodeError
  | sendFailed (payload : List ℕ) (keys : List AccountMeta)
  | submitted (payload : List ℕ) (keys : List AccountMeta) (sig : ℕ)
deriving DecidableEq

/-- The migrated check, `pumpfun.ts` 322-328: graduated when the curve
account is absent or its completion flag is set. -/
def hasGraduated (env : BuyEnv) : Bool :=
  match env.curve with
  | none => true
  | some curveData => curveData.complete

/-- The buy path of `executeBuyback` (`buyback.ts` 66-136) over the
external inputs of `BuyEnv`, taken at the lamport level.  The
associated-token-account bookkeeping and logging are effect-free for
the properties below and are omitted; the graduated check, the second
curve fetch, the quote, the instruction encoding and the submission
follow the source order. -/
def executeBuyback (cfg : BotConfig) (env : BuyEnv) (solLamports : ℕ) : BuyOutcome :=
  if hasGraduated env then .graduated
  else
    match env.curve with
    | none => .noCurveData
    | some curveData =>
      let expectedTokens : ℕ := calculateBuyAmount solLamports curveData
      let minTokens : ℤ := minTokensWithSlippage expectedTokens cfg.slippageBps
      match encodeBuyInstructionData solLamports minTokens with
      | none => .encodeError
      | some payload =>
        match env.sendSignature with
        | none => .sendFailed payload buyInstructionKeys
        | some sig => .submitted payload buyInstructionKeys sig

/-! ## Transaction submission with format fallback
(`claimFees`, `pumpfun.ts` 147-169, and identically `buyTokens` 228-248) -/

/-- Wire formats attempted by the submitter. -/
inductive TxFormat where
  | versioned
  | legacy
deriving DecidableEq

/-- External-world inputs of one submission: whether
`VersionedTransaction.deserialize` and `sign` succeed, and the results
of the versioned and legacy network sends (`none` = the call throws,
which for the send calls includes network rejection). -/
structure SubmitEnv where
  versionedDeserializeOk : Bool
  versionedSignOk : Bool
  versionedSendSig : Option ℕ
  legacySendSig : Option ℕ
deriving DecidableEq

/-- The legacy branch of the `catch` block (`pumpfun.ts` 158-166):
deserialization as a legacy transaction, signing and the raw send,
collapsed to its result (`none` = some step throws, which propagates
to the caller's outer `catch`). -/
def legacyAttempt (env : SubmitEnv) : Option ℕ :=
  env.legacySendSig

/-- The `try`/`catch` submission of `pumpfun.ts` 151-166: the versioned
path (deserialize, sign, send) runs inside one `try`, and ANY throw in
it — including the network rejecting the send — enters the legacy
`catch` branch.  Returns the list of formats attempted, in order,
together with the resulting signature. -/
def submitPortalTransaction (env : SubmitEnv) : List TxFormat × Option ℕ :=
  if env.versionedDeserializeOk ∧ env.versionedSignOk then
    match env.versionedSendSig with
    | some sig => ([.versioned], some sig)
    | none => ([.versioned, .legacy], legacyAttempt env)
  else ([.versioned, .legacy], legacyAttempt env)

/-! ## Fee amounts (`claimFees`, `pumpfun.ts` 168-178) -/

/-- The claimed amount reported by a successful `claimFees`
(`pumpfun.ts` 172-178): the wallet balance delta converted to SOL and
clamped below by zero with `Math.max(0, ...)`.  Balances are lamport
counts (naturals); the conversion and clamp are exact in `ℚ`. -/
def claimFeesReportedAmount (balanceBefore balanceAfter : ℕ) : ℚ :=
  max 0 (((balanceAfter : ℚ) - (balanceBefore : ℚ)) / (LAMPORTS_PER_SOL : ℚ))

/-! ## The orchestration cycle (`executeAutomaticBuyback`, `buyback.ts` 142-182) -/

/-- External-world inputs of one cycle: the claimable-fee estimate
returned by `getClaimableFees` (which returns `-1` as the "unknown"
sentinel, `pumpfun.ts` 99-112), whether `claimFees` returns a non-null
result, the balance-delta amount that result carries, and the result
of the buy leg. -/
structure CycleEnv where
  claimableFees : ℚ
  claimSucceeds : Bool
  claimReportedDelta : ℚ
  buySignature : Option ℕ
deriving DecidableEq

/-- The value returned by `executeAutomaticBuyback`. -/
structure CycleResult where
  claimedSol : ℚ
  buybackTx : Option ℕ
deriving DecidableEq

/-- One cycle outcome together with whether `claimFees` was invoked. -/
structure CycleTrace where
  claimAttempted : Bool
  result : CycleResult
deriving DecidableEq

/-- The orchestration cycle of `executeAutomaticBuyback` (`buyback.ts`
142-182): `claimFees` is invoked only under `claimableFees >= 0.001`;
on a non-null claim result the carried amount is set to the PRE-CLAIM
ESTIMATE `claimableFees` (line 163) — the claim result's balance-delta
amount is discarded; below `minBuybackAmount` the cycle stops with a
null buy, otherwise the buy leg runs with the carried amount. -/
def executeAutomaticBuyback (cfg : BotConfig) (env : CycleEnv) : CycleTrace :=
  let claimAttempted : Bool := decide ((1 / 1000 : ℚ) ≤ env.claimableFees)
  let totalBuybackAmount : ℚ :=
    if claimAttempted = true ∧ env.claimSucceeds = true then env.claimableFees else 0
  if totalBuybackAmount < cfg.minBuybackAmount then
    ⟨claimAttempted, totalBuybackAmount, none⟩
  else
    ⟨claimAttempted, totalBuybackAmount, env.buySignature⟩

/-! ## Byte-level helper lemmas -/

/-- The value of a truncated little-endian list is the positional sum of
its entries (`getD` default 0 makes the formula total). -/
theorem readNatLE_take (l : List ℕ) (k : ℕ) :
    readNatLE (l.take k) = ∑ i ∈ Finset.range k, l.getD i 0 * 256 ^ i := by
  induction l generalizing k with
  | nil => simp [readNatLE, List.getD]
  | cons b bs ih =>
    cases k with
    | zero => simp [readNatLE]
    | succ k =>
      rw [List.take_succ_cons, readNatLE, ih k, Finset.sum_range_succ']
      simp only [List.getD_cons_succ, List.getD_cons_zero, pow_zero, mul_one,
        pow_succ, Finset.mul_sum]
      rw [add_comm]
      congr 1
      refine Finset.sum_congr rfl fun i _ => by ring

/-- Dropping shifts `getD` indices. -/
theorem getD_drop (l : List ℕ) (n i : ℕ) :
    (l.drop n).getD i 0 = l.getD (n + i) 0 := by
  simp [List.getD_eq_getElem?_getD, List.getElem?_drop]

/-- An in-range eight-byte read is the positional sum at its offset. -/
theorem readBigUInt64LE_eq_leFieldAt (data : List ℕ) (off : ℕ)
    (h : off + 8 ≤ data.length) :
    readBigUInt64LE data off = some (leFieldAt data off) := by
  rw [readBigUInt64LE, if_pos h, readNatLE_take, leFieldAt]
  congr 1
  exact Finset.sum_congr rfl fun i _ => by rw [getD_drop]

/-- C6: decoding fails exactly on buffers shorter than 49 bytes (8-byte
header, five 8-byte unsigned little-endian integers, one flag byte); on
longer buffers it recovers the little-endian u64 fields at offsets
8, 16, 24, 32, 40 and reads `complete` as byte 48 equalling 1. -/
theorem decode_characterization (data : List ℕ) :
    decodeBondingCurveAccount data =
      if 49 ≤ data.length then
        some
          { virtualTokenReserves := leFieldAt data 8
            virtualSolReserves := leFieldAt data 16
            realTokenReserves := leFieldAt data 24
            realSolReserves := leFieldAt data 32
            tokenTotalSupply := leFieldAt data 40
            complete := data.getD 48 0 == 1 }
      else none := by
  by_cases h : 49 ≤ data.length
  · rw [if_pos h]
    have h48 : readUInt8 data 48 = some (data.getD 48 0) := by
      rw [readUInt8, if_pos (by omega)]
    simp only [decodeBondingCurveAccount,
      readBigUInt64LE_eq_leFieldAt data 8 (by omega),
      readBigUInt64LE_eq_leFieldAt data 16 (by omega),
      readBigUInt64LE_eq_leFieldAt data 24 (by omega),
      readBigUInt64LE_eq_leFieldAt data 32 (by omega),
      readBigUInt64LE_eq_leFieldAt data 40 (by omega),
      h48, Option.some_bind]
    rfl
  · rw [if_neg h]
    have h48 : readUInt8 data 48 = none := by
      rw [readUInt8, if_neg (by omega)]
    unfold decodeBondingCurveAccount
    cases readBigUInt64LE data 8 <;> cases readBigUInt64LE data 16 <;>
      cases readBigUInt64LE data 24 <;> cases readBigUInt64LE data 32 <;>
        cases readBigUInt64LE data 40 <;> simp [h48]

/-- Length of a little-endian encoding. -/
theorem leBytes_length (k n : ℕ) : (leBytes k n).length = k := by
  induction k generalizing n with
  | zero => rfl
  | succ k ih => simp [leBytes, ih]

/-- Reading back a little-endian encoding recovers the value modulo the
width. -/
theorem readNatLE_leBytes (k n : ℕ) : readNatLE (leBytes k n) = n % 256 ^ k := by
  induction k generalizing n with
  | zero => simp [leBytes, readNatLE, Nat.mod_one]
  | succ k ih =>
    rw [leBytes, readNatLE, ih, pow_succ', Nat.mod_mul]

/-- C4: for in-range u64 arguments the encoded buy payload is 24 bytes:
bytes 0-7 are the fixed buy discriminator, bytes 8-15 read back (as a
little-endian u64) to `solInLamports`, bytes 16-23 read back to
`minTokensOut`, and the account-key list is exactly the eleven entries
of the wire contract in order with the stated signer/writable flags. -/
theorem buy_instruction_encoding (solIn minOut : ℕ)
    (h1 : solIn < 2 ^ 64) (h2 : minOut < 2 ^ 64) :
    encodeBuyInstructionData solIn minOut =
      some (buyDiscriminator ++ leBytes 8 solIn ++ leBytes 8 minOut) ∧
    (buyDiscriminator ++ leBytes 8 solIn ++ leBytes 8 minOut).length = 24 ∧
    (buyDiscriminator ++ leBytes 8 solIn ++ leBytes 8 minOut).take 8 = buyDiscriminator ∧
    readNatLE (((buyDiscriminator ++ leBytes 8 solIn ++ leBytes 8 minOut).drop 8).take 8) =
      solIn ∧
    readNatLE (((buyDiscriminator ++ leBytes 8 solIn ++ leBytes 8 minOut).drop 16).take 8) =
      minOut ∧
    buyInstructionKeys =
      [ ⟨.globalState, false, false⟩, ⟨.feeAccount, false, true⟩,
        ⟨.tokenMint, false, false⟩, ⟨.curvePda, false, true⟩,
        ⟨.curveTokenAccount, false, true⟩, ⟨.buyerTokenAccount, false, true⟩,
        ⟨.buyer, true, true⟩, ⟨.systemProgram, false, false⟩,
        ⟨.tokenProgram, false, false⟩, ⟨.rentSysvar, false, false⟩,
        ⟨.associatedTokenProgram, false, false⟩ ] := by
  have hmod : (256 : ℕ) ^ 8 = 2 ^ 64 := by norm_num
  have hdisc : buyDiscriminator.length = 8 := rfl
  have hsol : (leBytes 8 solIn).length = 8 := leBytes_length 8 solIn
  have he : encodeBuyInstructionData solIn minOut =
      some (buyDiscriminator ++ leBytes 8 solIn ++ leBytes 8 minOut) := by
    rw [encodeBuyInstructionData, writeBigUInt64LE,
      if_pos ⟨Int.natCast_nonneg solIn, by exact_mod_cast h1⟩,
      Option.some_bind, writeBigUInt64LE,
      if_pos ⟨Int.natCast_nonneg minOut, by exact_mod_cast h2⟩]
    simp [Int.toNat_natCast]
  refine ⟨he, ?_, ?_, ?_, ?_, rfl⟩
  · simp [leBytes_length, hdisc]
  · rw [List.append_assoc, List.take_left' hdisc]
  · rw [List.append_assoc, List.drop_left' hdisc, List.take_left' hsol,
      readNatLE_leBytes, hmod, Nat.mod_eq_of_lt h1]
  · have h16 : (buyDiscriminator ++ leBytes 8 solIn).length = 16 := by
      simp [leBytes_length, hdisc]
    rw [List.drop_left' h16,
      List.take_of_length_le (le_of_eq (leBytes_length 8 minOut)),
      readNatLE_leBytes, hmod, Nat.mod_eq_of_lt h2]

/-- Witness for C4 at the spec's example input
`(solIn = 500000000, minTokensOut = 123456)`. -/
theorem buy_instruction_encoding_witness :
    (500000000 : ℕ) < 2 ^ 64 ∧ (123456 : ℕ) < 2 ^ 64 ∧
    (encodeBuyInstructionData 500000000 123456 =
        some (buyDiscriminator ++ leBytes 8 500000000 ++ leBytes 8 123456) ∧
      (buyDiscriminator ++ leBytes 8 500000000 ++ leBytes 8 123456).length = 24 ∧
      (buyDiscriminator ++ leBytes 8 500000000 ++ leBytes 8 123456).take 8 =
        buyDiscriminator ∧
      readNatLE
          (((buyDiscriminator ++ leBytes 8 500000000 ++ leBytes 8 123456).drop 8).take 8) =
        500000000 ∧
      readNatLE
          (((buyDiscriminator ++ leBytes 8 500000000 ++ leBytes 8 123456).drop 16).take 8) =
        123456 ∧
      buyInstructionKeys =
        [ ⟨.globalState, false, false⟩, ⟨.feeAccount, false, true⟩,
          ⟨.tokenMint, false, false⟩, ⟨.curvePda, false, true⟩,
          ⟨.curveTokenAccount, false, true⟩, ⟨.buyerTokenAccount, false, true⟩,
          ⟨.buyer, true, true⟩, ⟨.systemProgram, false, false⟩,
          ⟨.tokenProgram, false, false⟩, ⟨.rentSysvar, false, false⟩,
          ⟨.associatedTokenProgram, false, false⟩ ]) :=
  ⟨by norm_num, by norm_num,
    buy_instruction_encoding 500000000 123456 (by norm_num) (by norm_num)⟩

/-! ## Pricing exactness -/

/-- Floor division of naturals agrees with the exact rational quotient. -/
theorem natDiv_eq_floor_ratCast (a b : ℕ) : (a / b : ℕ) = ⌊(a : ℚ) / (b : ℚ)⌋₊ := by
  rw [Nat.floor_div_nat, Nat.floor_natCast]

/-- C1: with `virtualSolReserves + solIn > 0` and `slippageBps < 10000`,
the quote is exact integer arithmetic: `tokensOut` is the floor of the
true rational `solIn * virtualTokenReserves / (virtualSolReserves + solIn)`
and the slippage minimum is the floor of
`tokensOut * (10000 - slippageBps) / 10000`, with no drift at any
magnitude (the embedding computes in unbounded integers, as the source
computes in `BigInt`). -/
theorem quote_exact_integer (curveData : BondingCurveData) (solIn slippageBps : ℕ)
    (h1 : 0 < curveData.virtualSolReserves + solIn) (h2 : slippageBps < 10000) :
    calculateBuyAmount solIn curveData =
      ⌊((solIn : ℚ) * (curveData.virtualTokenReserves : ℚ)) /
        ((curveData.virtualSolReserves : ℚ) + (solIn : ℚ))⌋₊ ∧
    minTokensWithSlippage (calculateBuyAmount solIn curveData) slippageBps =
      ((⌊((calculateBuyAmount solIn curveData : ℚ) * ((10000 : ℚ) - (slippageBps : ℚ))) /
          (10000 : ℚ)⌋₊ : ℕ) : ℤ) := by
  constructor
  · rw [calculateBuyAmount, natDiv_eq_floor_ratCast]
    congr 1
    push_cast
    ring
  · have hsz : ((10000 : ℤ) - (slippageBps : ℤ)) = ((10000 - slippageBps : ℕ) : ℤ) := by
      omega
    have hm : ((calculateBuyAmount solIn curveData : ℤ) * ((10000 - slippageBps : ℕ) : ℤ)) =
        ((calculateBuyAmount solIn curveData * (10000 - slippageBps) : ℕ) : ℤ) := by
      push_cast
      ring
    have hq : ((calculateBuyAmount solIn curveData : ℚ) * ((10000 : ℚ) - (slippageBps : ℚ))) =
        ((calculateBuyAmount solIn curveData * (10000 - slippageBps) : ℕ) : ℚ) := by
      push_cast [Nat.cast_sub h2.le]
      ring
    rw [minTokensWithSlippage, hsz, hm, hq,
      show (10000 : ℚ) = ((10000 : ℕ) : ℚ) from by norm_cast,
      ← natDiv_eq_floor_ratCast,
      show (10000 : ℤ) = ((10000 : ℕ) : ℤ) from by norm_cast]
    exact (Int.ofNat_tdiv _ 10000).symm

/-- Witness for C1 at the spec's example
(`solIn = 10^9` lamports, `virtualTokenReserves = 1073000000000000`,
`virtualSolReserves = 30000000000`, `slippageBps = 500`). -/
theorem quote_exact_integer_witness :
    0 < (30000000000 : ℕ) + 1000000000 ∧ (500 : ℕ) < 10000 ∧
    (calculateBuyAmount 1000000000 ⟨1073000000000000, 30000000000, 0, 0, 0, false⟩ =
        ⌊(((1000000000 : ℕ) : ℚ) * ((1073000000000000 : ℕ) : ℚ)) /
          (((30000000000 : ℕ) : ℚ) + ((1000000000 : ℕ) : ℚ))⌋₊ ∧
      minTokensWithSlippage
          (calculateBuyAmount 1000000000 ⟨1073000000000000, 30000000000, 0, 0, 0, false⟩)
          500 =
        ((⌊((calculateBuyAmount 1000000000
                ⟨1073000000000000, 30000000000, 0, 0, 0, false⟩ : ℚ) *
              ((10000 : ℚ) - ((500 : ℕ) : ℚ))) / (10000 : ℚ)⌋₊ : ℕ) : ℤ)) :=
  ⟨by norm_num, by norm_num,
    quote_exact_integer ⟨1073000000000000, 30000000000, 0, 0, 0, false⟩ 1000000000 500
      (by norm_num) (by norm_num)⟩

/-! ## Graduated guard -/

/-- C5: whenever the curve account is absent or its state reports
`complete = true`, the buy path returns the graduated outcome
immediately — no instruction is constructed (the `graduated` outcome
carries no payload) and nothing is submitted. -/
theorem graduated_short_circuit (cfg : BotConfig) (env : BuyEnv) (solLamports : ℕ)
    (h : env.curve = none ∨
      ∃ curveData, env.curve = some curveData ∧ curveData.complete = true) :
    executeBuyback cfg env solLamports = BuyOutcome.graduated := by
  have hg : hasGraduated env = true := by
    rcases h with h | ⟨curveData, h, hc⟩
    · simp [hasGraduated, h]
    · simp [hasGraduated, h, hc]
  simp [executeBuyback, hg]

/-- Witness for C5: a present curve whose `complete` flag is set. -/
theorem graduated_short_circuit_witness :
    ((⟨some ⟨1000, 1000, 0, 0, 0, true⟩, some 0⟩ : BuyEnv).curve = none ∨
      ∃ curveData, (⟨some ⟨1000, 1000, 0, 0, 0, true⟩, some 0⟩ : BuyEnv).curve =
        some curveData ∧ curveData.complete = true) ∧
    executeBuyback ⟨1 / 100, 500⟩ ⟨some ⟨1000, 1000, 0, 0, 0, true⟩, some 0⟩ 5 =
      BuyOutcome.graduated :=
  ⟨Or.inr ⟨⟨1000, 1000, 0, 0, 0, true⟩, rfl, rfl⟩,
    graduated_short_circuit ⟨1 / 100, 500⟩ ⟨some ⟨1000, 1000, 0, 0, 0, true⟩, some 0⟩ 5
      (Or.inr ⟨⟨1000, 1000, 0, 0, 0, true⟩, rfl, rfl⟩)⟩

/-! ## Slippage is never validated (C7) -/

/-- C7 counterexample: nothing validates `slippageBps`.  At
`slippageBps = 10000` the quote is computed (`minTokensOut = 0`, a
QuoteResult) and the buy pipeline proceeds all the way to submission;
no configuration error is raised anywhere. -/
theorem slippage_10000_reaches_submission :
    minTokensWithSlippage
        (calculateBuyAmount 1000000000 ⟨1073000000000000, 30000000000, 0, 0, 0, false⟩)
        10000 = 0 ∧
    executeBuyback ⟨1 / 100, 10000⟩
        ⟨some ⟨1073000000000000, 30000000000, 0, 0, 0, false⟩, some 7⟩ 1000000000 =
      BuyOutcome.submitted
        (buyDiscriminator ++ leBytes 8 1000000000 ++ leBytes 8 0)
        buyInstructionKeys 7 := by
  constructor
  · decide
  · decide

/-- C7 amended: the quote never fails on out-of-range `slippageBps`.
For `slippageBps ≥ 10000` it still produces a QuoteResult, whose
minimum is `tokensOut * (10000 - slippageBps) / 10000 ≤ 0` under
truncating `BigInt` division; only when that minimum is strictly
negative does the buy later fail — at the u64 payload encoding, not as
a configuration error. -/
theorem slippage_ge_10000_quote (solIn : ℕ) (curveData : BondingCurveData)
    (slippageBps : ℕ) (h : 10000 ≤ slippageBps) :
    minTokensWithSlippage (calculateBuyAmount solIn curveData) slippageBps ≤ 0 ∧
    (minTokensWithSlippage (calculateBuyAmount solIn curveData) slippageBps < 0 →
      encodeBuyInstructionData solIn
        (minTokensWithSlippage (calculateBuyAmount solIn curveData) slippageBps) = none) := by
  constructor
  · rw [minTokensWithSlippage]
    have hprod : ((calculateBuyAmount solIn curveData : ℤ) *
        ((10000 : ℤ) - (slippageBps : ℤ))) ≤ 0 :=
      mul_nonpos_of_nonneg_of_nonpos (Int.natCast_nonneg _) (by omega)
    have hnn : 0 ≤ (-((calculateBuyAmount solIn curveData : ℤ) *
        ((10000 : ℤ) - (slippageBps : ℤ)))).tdiv 10000 :=
      Int.tdiv_nonneg (by omega) (by norm_num)
    have heq := Int.neg_tdiv ((calculateBuyAmount solIn curveData : ℤ) *
        ((10000 : ℤ) - (slippageBps : ℤ))) 10000
    omega
  · intro hneg
    have hw : writeBigUInt64LE
        (minTokensWithSlippage (calculateBuyAmount solIn curveData) slippageBps) = none := by
      rw [writeBigUInt64LE, if_neg]
      intro hcontra
      omega
    rw [encodeBuyInstructionData]
    cases writeBigUInt64LE (solIn : ℤ) <;> simp [hw]

/-- Witness for C7's amended statement at `slippageBps = 20000`, where
the quote's minimum is strictly negative and the encoding fails. -/
theorem slippage_ge_10000_quote_witness :
    (10000 : ℕ) ≤ 20000 ∧
    (minTokensWithSlippage (calculateBuyAmount 10 ⟨1000000, 100, 0, 0, 0, false⟩) 20000 ≤ 0 ∧
      (minTokensWithSlippage (calculateBuyAmount 10 ⟨1000000, 100, 0, 0, 0, false⟩) 20000 < 0 →
        encodeBuyInstructionData 10
          (minTokensWithSlippage (calculateBuyAmount 10 ⟨1000000, 100, 0, 0, 0, false⟩) 20000) =
          none)) ∧
    encodeBuyInstructionData 10
        (minTokensWithSlippage (calculateBuyAmount 10 ⟨1000000, 100, 0, 0, 0, false⟩) 20000) =
      none :=
  ⟨by norm_num,
    slippage_ge_10000_quote 10 ⟨1000000, 100, 0, 0, 0, false⟩ 20000 (by norm_num),
    (slippage_ge_10000_quote 10 ⟨1000000, 100, 0, 0, 0, false⟩ 20000 (by norm_num)).2
      (by decide)⟩

/-! ## Transaction-format fallback (C8) -/

/-- C8 counterexample: versioned deserialization and signing succeed but
the network send of the versioned transaction throws (a rejection);
the source's `catch` still runs and the legacy format is attempted —
contradicting the claim that a network rejection never triggers the
legacy fallback. -/
theorem network_rejection_triggers_legacy :
    submitPortalTransaction ⟨true, true, none, some 5⟩ =
      ([TxFormat.versioned, TxFormat.legacy], some 5) := by
  decide

/-- C8 amended: the versioned format is always attempted first, and the
legacy fallback is attempted exactly when ANY step of the versioned
path throws — deserialization, signing, or the network send itself
(the whole versioned path sits in one `try`). -/
theorem fallback_attempt_characterization (env : SubmitEnv) :
    (submitPortalTransaction env).1.head? = some TxFormat.versioned ∧
    (TxFormat.legacy ∈ (submitPortalTransaction env).1 ↔
      ¬(env.versionedDeserializeOk = true ∧ env.versionedSignOk = true ∧
        env.versionedSendSig.isSome = true)) := by
  obtain ⟨d, s, v, l⟩ := env
  cases d <;> cases s <;> cases v <;>
    simp [submitPortalTransaction, legacyAttempt]

/-! ## Orchestration cycle -/

/-- C2 (code bug, evaluated at the failing input): `getClaimableFees`
returns the `-1` sentinel meaning "unknown, attempt claim anyway"
(its own comments say so), yet the orchestrator's
`claimableFees >= 0.001` gate is false at `-1`, so the claim is never
attempted. -/
theorem sentinel_skips_claim :
    (executeAutomaticBuyback ⟨1 / 100, 500⟩ ⟨-1, true, 1 / 2, some 3⟩).claimAttempted =
      false := by
  have h : decide ((1 / 1000 : ℚ) ≤ (-1 : ℚ)) = false :=
    decide_eq_false (by norm_num)
  simp only [executeAutomaticBuyback, h]
  norm_num

/-- C3 (code bug, evaluated at the failing input): `claimFees` reports the
wallet balance delta (here 0.3 SOL for balances 5.0 → 5.3), but the
orchestrator carries the pre-claim estimate (here 0.5 SOL) into the
threshold check and buy decision, discarding the delta. -/
theorem orchestrator_carries_estimate :
    claimFeesReportedAmount 5000000000 5300000000 = 3 / 10 ∧
    (executeAutomaticBuyback ⟨1 / 100, 500⟩
        ⟨1 / 2, true, 3 / 10, some 9⟩).result.claimedSol = 1 / 2 ∧
    ((1 : ℚ) / 2) ≠ 3 / 10 := by
  refine ⟨?_, ?_, by norm_num⟩
  · rw [claimFeesReportedAmount]
    norm_num [LAMPORTS_PER_SOL]
  · norm_num [executeAutomaticBuyback]

/-- C9: whenever a cycle's result has a non-null buy transaction, the
`claimedSol` it carries is at least the configured
`minBuybackAmount` — the buy leg only runs after the threshold check
passes on the carried amount. -/
theorem buyback_threshold_invariant (cfg : BotConfig) (env : CycleEnv) (sig : ℕ)
    (h : (executeAutomaticBuyback cfg env).result.buybackTx = some sig) :
    cfg.minBuybackAmount ≤ (executeAutomaticBuyback cfg env).result.claimedSol := by
  simp only [executeAutomaticBuyback] at h ⊢
  set t : ℚ :=
    if decide ((1 / 1000 : ℚ) ≤ env.claimableFees) = true ∧ env.claimSucceeds = true
    then env.claimableFees else 0 with hts
  by_cases hlt : t < cfg.minBuybackAmount
  · rw [if_pos hlt] at h
    simp at h
  · rw [if_neg hlt] at h ⊢
    simpa using not_lt.mp hlt

/-- Witness for C9: a cycle whose claim estimate 0.5 SOL passes the
0.01 SOL threshold and whose buy leg succeeds. -/
theorem buyback_threshold_invariant_witness :
    (executeAutomaticBuyback ⟨1 / 100, 500⟩ ⟨1 / 2, true, 1 / 2, some 4⟩).result.buybackTx =
      some 4 ∧
    (⟨1 / 100, 500⟩ : BotConfig).minBuybackAmount ≤
      (executeAutomaticBuyback ⟨1 / 100, 500⟩ ⟨1 / 2, true, 1 / 2, some 4⟩).result.claimedSol :=
  ⟨by norm_num [executeAutomaticBuyback],
    buyback_threshold_invariant ⟨1 / 100, 500⟩ ⟨1 / 2, true, 1 / 2, some 4⟩ 4
      (by norm_num [executeAutomaticBuyback])⟩

/-- C10: the amount reported by a successful `claimFees` is clamped with
`Math.max(0, ...)`: it is never negative, and a negative balance delta
(fee exceeded the claimed lamports) reports exactly 0. -/
theorem claim_amount_clamped (balanceBefore balanceAfter : ℕ) :
    0 ≤ claimFeesReportedAmount balanceBefore balanceAfter ∧
    (balanceAfter < balanceBefore →
      claimFeesReportedAmount balanceBefore balanceAfter = 0) := by
  constructor
  · exact le_max_left 0 _
  · intro h
    rw [claimFeesReportedAmount]
    apply max_eq_left
    apply div_nonpos_iff.mpr
    refine Or.inr ⟨?_, by positivity⟩
    simp only [sub_nonpos]
    exact_mod_cast h.le

/-- Witness for C10 at balances 2 → 1 lamports (negative delta). -/
theorem claim_amount_clamped_witness :
    (0 ≤ claimFeesReportedAmount 2 1 ∧
      ((1 : ℕ) < 2 → claimFeesReportedAmount 2 1 = 0)) ∧
    claimFeesReportedAmount 2 1 = 0 :=
  ⟨claim_amount_clamped 2 1, (claim_amount_clamped 2 1).2 (by norm_num)⟩

end ClaudeBuyback
